import Mathlib

/-!
Verification development for the mailwpro-server storage core: a shallow embedding of
the `AtomicBitset` concurrency primitive (`crates/trc/src/atomics/bitset.rs`), the
`TikvStore::open` configuration logic (`crates/store/src/backend/tikv/main.rs`), the
13-byte change-log key encoding, and the account purge routine, together with proofs
of the testable properties stated for them.

Machine words are `usize` on the 64-bit targets the server runs on; atomic
read-modify-write steps are sequentialized into pure state updates, and each Rust
array-bounds check becomes an explicit `Option`.
-/

/-- Word width of `usize` (64-bit targets); mirrors `USIZE_BITS` from `crate::ipc`. -/
def USIZE_BITS : Nat := 64

/-- Mirrors `USIZE_BITS_MASK = USIZE_BITS - 1`, used as `index & USIZE_BITS_MASK`. -/
def USIZE_BITS_MASK : Nat := USIZE_BITS - 1

/-- Modelled from the spec: `crate::ipc::bitset::Bitset<N>` is not under `src/`; per the
spec it is a plain (non-atomic) snapshot of the same shape as `AtomicBitset<N>`, that
is, a fixed array of `N` machine words, consumed by `update` and `union`. -/
structure Bitset (N : Nat) where
  words : List Nat
  hlen : words.length = N

/-- Embeds `AtomicBitset<N>` from `crates/trc/src/atomics/bitset.rs`: an array of `N`
atomic machine words. Each atomic operation becomes a pure state update. -/
structure AtomicBitset (N : Nat) where
  words : List Nat
  hlen : words.length = N

/-- Embeds `AtomicBitset::set`: `self.0[index / USIZE_BITS].fetch_or(1 << (index &
USIZE_BITS_MASK))`. The `Option` models the bounds check on the array indexing:
`none` is the out-of-bounds panic. -/
def AtomicBitset.set {N : Nat} (s : AtomicBitset N) (index : Nat) :
    Option (AtomicBitset N) :=
  if index / USIZE_BITS < N then
    some ⟨s.words.set (index / USIZE_BITS)
            ((s.words.getD (index / USIZE_BITS) 0) ||| (1 <<< (index &&& USIZE_BITS_MASK))),
          by simp [s.hlen]⟩
  else
    none

/-- Embeds `AtomicBitset::clear`: `fetch_and(!(1 << (index & USIZE_BITS_MASK)))`; the
64-bit complement `!x` is `(2^64 - 1) ^^^ x`. -/
def AtomicBitset.clear {N : Nat} (s : AtomicBitset N) (index : Nat) :
    Option (AtomicBitset N) :=
  if index / USIZE_BITS < N then
    some ⟨s.words.set (index / USIZE_BITS)
            ((s.words.getD (index / USIZE_BITS) 0) &&&
              ((2 ^ USIZE_BITS - 1) ^^^ (1 <<< (index &&& USIZE_BITS_MASK)))),
          by simp [s.hlen]⟩
  else
    none

/-- Embeds `AtomicBitset::get`: `load() & (1 << (index & USIZE_BITS_MASK)) != 0`. -/
def AtomicBitset.get {N : Nat} (s : AtomicBitset N) (index : Nat) : Option Bool :=
  if index / USIZE_BITS < N then
    some (((s.words.getD (index / USIZE_BITS) 0) &&& (1 <<< (index &&& USIZE_BITS_MASK))) != 0)
  else
    none

/-- Embeds `AtomicBitset::update`: `for i in 0..N { self.0[i].store(bitset.0[i]) }`;
since both arrays have exactly `N` words this replaces the whole contents. -/
def AtomicBitset.update {N : Nat} (_s : AtomicBitset N) (bitset : Bitset N) :
    AtomicBitset N :=
  ⟨bitset.words, bitset.hlen⟩

/-- Embeds `AtomicBitset::union`: `for i in 0..N { self.0[i].fetch_or(bitset.0[i]) }`. -/
def AtomicBitset.union {N : Nat} (s : AtomicBitset N) (bitset : Bitset N) :
    AtomicBitset N :=
  ⟨List.zipWith (fun a b => a ||| b) s.words bitset.words,
   by simp [s.hlen, bitset.hlen]⟩

/-- Embeds `AtomicBitset::clear_all`: `for i in 0..N { self.0[i].store(0) }`. -/
def AtomicBitset.clear_all {N : Nat} (_s : AtomicBitset N) : AtomicBitset N :=
  ⟨List.replicate N 0, by simp⟩

/-- Embeds `AtomicBitset::is_empty`: returns `false` on the first nonzero word. -/
def AtomicBitset.is_empty {N : Nat} (s : AtomicBitset N) : Bool :=
  s.words.all (fun w => w == 0)

/-- Bit `i` of a plain snapshot, addressed the same way `get` addresses bits. -/
def Bitset.bitAt {N : Nat} (b : Bitset N) (index : Nat) : Bool :=
  (b.words.getD (index / USIZE_BITS) 0).testBit (index % USIZE_BITS)

lemma and_mask_eq_mod (index : Nat) : index &&& USIZE_BITS_MASK = index % USIZE_BITS := by
  have h := Nat.and_pow_two_sub_one_eq_mod index 6
  norm_num at h
  simpa [USIZE_BITS, USIZE_BITS_MASK] using h

lemma and_shift_ne_zero (w b : Nat) : ((w &&& (1 <<< b)) != 0) = w.testBit b := by
  rw [Nat.shiftLeft_eq, one_mul, Nat.and_two_pow]
  have h2 : (2 : Nat) ^ b ≠ 0 := pow_ne_zero b (by norm_num)
  cases h : w.testBit b <;> simp [h, h2]

lemma getD_set_self (l : List Nat) (i a : Nat) (h : i < l.length) :
    (l.set i a).getD i 0 = a := by
  rw [List.getD_eq_getElem _ _ (by simpa using h), List.getElem_set_self]

lemma getD_set_ne (l : List Nat) (i j a : Nat) (hj : j < l.length) (hne : i ≠ j) :
    (l.set i a).getD j 0 = l.getD j 0 := by
  rw [List.getD_eq_getElem _ _ (by simpa using hj), List.getElem_set_ne hne,
    List.getD_eq_getElem _ _ hj]

lemma AtomicBitset.get_eq_testBit {N : Nat} (s : AtomicBitset N) (index : Nat)
    (h : index / USIZE_BITS < N) :
    s.get index =
      some ((s.words.getD (index / USIZE_BITS) 0).testBit (index % USIZE_BITS)) := by
  rw [AtomicBitset.get, if_pos h, and_mask_eq_mod, and_shift_ne_zero]

lemma word_index_lt {N i : Nat} (hi : i < N * USIZE_BITS) : i / USIZE_BITS < N :=
  (Nat.div_lt_iff_lt_mul (by norm_num [USIZE_BITS])).mpr hi

lemma bit_index_lt (i : Nat) : i % USIZE_BITS < USIZE_BITS :=
  Nat.mod_lt _ (by norm_num [USIZE_BITS])

/-- C6: for every `AtomicBitset<N>` and index `i < N * USIZE_BITS`, `set i` followed by
`get i` yields `true`; `clear i` followed by `get i` yields `false`; and after
`clear_all`, `is_empty` is `true` and `get i` yields `false`. -/
theorem atomicBitset_set_clear_clearAll_get {N : Nat} (s : AtomicBitset N) (i : Nat)
    (hi : i < N * USIZE_BITS) :
    ((s.set i).bind (fun t => t.get i)) = some true ∧
    ((s.clear i).bind (fun t => t.get i)) = some false ∧
    (s.clear_all).is_empty = true ∧
    (s.clear_all).get i = some false := by
  have hw : i / USIZE_BITS < N := word_index_lt hi
  have hlen : i / USIZE_BITS < s.words.length := by rw [s.hlen]; exact hw
  refine ⟨?_, ?_, ?_, ?_⟩
  · rw [AtomicBitset.set, if_pos hw, Option.some_bind,
      AtomicBitset.get_eq_testBit _ _ hw]
    simp only [and_mask_eq_mod]
    rw [getD_set_self _ _ _ hlen, Nat.shiftLeft_eq, one_mul, Nat.testBit_lor,
      Nat.testBit_two_pow]
    simp
  · rw [AtomicBitset.clear, if_pos hw, Option.some_bind,
      AtomicBitset.get_eq_testBit _ _ hw]
    simp only [and_mask_eq_mod]
    rw [getD_set_self _ _ _ hlen, Nat.shiftLeft_eq, one_mul, Nat.testBit_land,
      Nat.testBit_xor, Nat.testBit_two_pow_sub_one, Nat.testBit_two_pow]
    simp [bit_index_lt i]
  · simp [AtomicBitset.clear_all, AtomicBitset.is_empty, List.all_eq_true,
      List.mem_replicate]
  · rw [AtomicBitset.get_eq_testBit _ _ hw]
    simp only [AtomicBitset.clear_all]
    rw [List.getD_eq_getElem _ _ (by simpa using hw), List.getElem_replicate]
    simp

/-- C10: `set i` and `clear i` leave every other in-range bit `j` unchanged, including
bits in the same machine word as `i`. -/
theorem atomicBitset_set_clear_frame {N : Nat} (s : AtomicBitset N) (i j : Nat)
    (hi : i < N * USIZE_BITS) (hj : j < N * USIZE_BITS) (hne : j ≠ i) :
    ((s.set i).bind (fun t => t.get j)) = s.get j ∧
    ((s.clear i).bind (fun t => t.get j)) = s.get j := by
  have hwi : i / USIZE_BITS < N := word_index_lt hi
  have hwj : j / USIZE_BITS < N := word_index_lt hj
  have hleni : i / USIZE_BITS < s.words.length := by rw [s.hlen]; exact hwi
  have hlenj : j / USIZE_BITS < s.words.length := by rw [s.hlen]; exact hwj
  by_cases hsame : i / USIZE_BITS = j / USIZE_BITS
  · have hbne : i % USIZE_BITS ≠ j % USIZE_BITS := by
      intro hb
      apply hne
      have hdi := Nat.div_add_mod i USIZE_BITS
      have hdj := Nat.div_add_mod j USIZE_BITS
      have h64 : USIZE_BITS = 64 := rfl
      rw [h64] at hdi hdj hsame hb
      omega
    constructor
    · rw [AtomicBitset.set, if_pos hwi, Option.some_bind,
        AtomicBitset.get_eq_testBit _ _ hwj, AtomicBitset.get_eq_testBit s j hwj]
      simp only [and_mask_eq_mod]
      rw [← hsame, getD_set_self _ _ _ hleni, Nat.shiftLeft_eq, one_mul,
        Nat.testBit_lor, Nat.testBit_two_pow]
      simp [hbne]
    · rw [AtomicBitset.clear, if_pos hwi, Option.some_bind,
        AtomicBitset.get_eq_testBit _ _ hwj, AtomicBitset.get_eq_testBit s j hwj]
      simp only [and_mask_eq_mod]
      rw [← hsame, getD_set_self _ _ _ hleni, Nat.shiftLeft_eq, one_mul,
        Nat.testBit_land, Nat.testBit_xor, Nat.testBit_two_pow_sub_one,
        Nat.testBit_two_pow]
      simp [hbne, bit_index_lt j]
  · constructor
    · rw [AtomicBitset.set, if_pos hwi, Option.some_bind,
        AtomicBitset.get_eq_testBit _ _ hwj, AtomicBitset.get_eq_testBit s j hwj]
      rw [getD_set_ne _ _ _ _ hlenj hsame]
    · rw [AtomicBitset.clear, if_pos hwi, Option.some_bind,
        AtomicBitset.get_eq_testBit _ _ hwj, AtomicBitset.get_eq_testBit s j hwj]
      rw [getD_set_ne _ _ _ _ hlenj hsame]

/-- C7: after `update A` then `union B`, every in-range bit reads as the OR of the
corresponding bits of the two snapshots. -/
theorem atomicBitset_update_union_get {N : Nat} (s : AtomicBitset N) (A B : Bitset N)
    (i : Nat) (hi : i < N * USIZE_BITS) :
    ((s.update A).union B).get i = some (A.bitAt i || B.bitAt i) := by
  have hw : i / USIZE_BITS < N := word_index_lt hi
  have hA : i / USIZE_BITS < A.words.length := by rw [A.hlen]; exact hw
  have hB : i / USIZE_BITS < B.words.length := by rw [B.hlen]; exact hw
  rw [AtomicBitset.get_eq_testBit _ _ hw]
  simp only [AtomicBitset.update, AtomicBitset.union]
  have hzip : i / USIZE_BITS < (List.zipWith (fun a b => a ||| b) A.words B.words).length := by
    rw [List.length_zipWith, A.hlen, B.hlen]
    simpa using hw
  rw [List.getD_eq_getElem _ _ hzip, List.getElem_zipWith, Nat.testBit_lor]
  rw [Bitset.bitAt, Bitset.bitAt, List.getD_eq_getElem _ _ hA, List.getD_eq_getElem _ _ hB]

/-- C9: for `i < N * USIZE_BITS` the computed word index `i / USIZE_BITS` is below `N`
and `set`, `clear`, `get` all take the in-bounds branch; for `i >= N * USIZE_BITS` all
three hit the bounds check (modelled as `none`), so the violation is never silent. -/
theorem atomicBitset_bounds_check {N : Nat} (s : AtomicBitset N) (i : Nat) :
    (i < N * USIZE_BITS →
      i / USIZE_BITS < N ∧ (s.set i).isSome = true ∧ (s.clear i).isSome = true ∧
        (s.get i).isSome = true) ∧
    (N * USIZE_BITS ≤ i → s.set i = none ∧ s.clear i = none ∧ s.get i = none) := by
  constructor
  · intro hi
    have hw : i / USIZE_BITS < N := word_index_lt hi
    exact ⟨hw, by simp [AtomicBitset.set, hw], by simp [AtomicBitset.clear, hw],
      by simp [AtomicBitset.get, hw]⟩
  · intro hi
    have hw : ¬ i / USIZE_BITS < N := by
      intro h
      have := (Nat.div_lt_iff_lt_mul (by norm_num [USIZE_BITS] : 0 < USIZE_BITS)).mp h
      omega
    exact ⟨by simp [AtomicBitset.set, hw], by simp [AtomicBitset.clear, hw],
      by simp [AtomicBitset.get, hw]⟩

/-- Concrete two-word bitset used to instantiate the bitset theorems. -/
def sampleBits : AtomicBitset 2 := ⟨[0, 0], rfl⟩

/-- Concrete plain snapshot used to instantiate the snapshot theorems. -/
def sampleSnapA : Bitset 2 := ⟨[5, 1], rfl⟩

/-- Second concrete plain snapshot. -/
def sampleSnapB : Bitset 2 := ⟨[12, 2], rfl⟩

/-- Witness for C6 at `i = 70` on a two-word bitset. -/
theorem atomicBitset_set_clear_clearAll_get_witness :
    ((sampleBits.set 70).bind (fun t => t.get 70)) = some true ∧
    ((sampleBits.clear 70).bind (fun t => t.get 70)) = some false ∧
    (sampleBits.clear_all).is_empty = true ∧
    (sampleBits.clear_all).get 70 = some false :=
  atomicBitset_set_clear_clearAll_get sampleBits 70 (by decide)

/-- Witness for C10 at `i = 70`, `j = 65` (same machine word). -/
theorem atomicBitset_set_clear_frame_witness :
    ((sampleBits.set 70).bind (fun t => t.get 65)) = sampleBits.get 65 ∧
    ((sampleBits.clear 70).bind (fun t => t.get 65)) = sampleBits.get 65 :=
  atomicBitset_set_clear_frame sampleBits 70 65 (by decide) (by decide) (by decide)

/-- Witness for C7 at `i = 3`. -/
theorem atomicBitset_update_union_get_witness :
    ((sampleBits.update sampleSnapA).union sampleSnapB).get 3 =
      some (sampleSnapA.bitAt 3 || sampleSnapB.bitAt 3) :=
  atomicBitset_update_union_get sampleBits sampleSnapA sampleSnapB 3 (by decide)

/-- Witness for C9: index 100 is in bounds for two words, index 200 is not. -/
theorem atomicBitset_bounds_check_witness :
    (sampleBits.set 100).isSome = true ∧ sampleBits.get 200 = none :=
  ⟨((atomicBitset_bounds_check sampleBits 100).1 (by decide)).2.1,
   ((atomicBitset_bounds_check sampleBits 200).2 (by decide)).2.2⟩

/-- Interface model of `tikv_client::Backoff`: the five constructors `TikvStore::open`
can select. Internal backoff state is opaque to `open`; only the constructor chosen
and the parameters passed matter here. -/
inductive Backoff where
  | no_jitter_backoff (min_delay max_delay : Nat) (max_attempts : Nat)
  | equal_jitter_backoff (min_delay max_delay : Nat) (max_attempts : Nat)
  | decorrelated_jitter_backoff (min_delay max_delay : Nat) (max_attempts : Nat)
  | no_backoff
  | full_jitter_backoff (min_delay max_delay : Nat) (max_attempts : Nat)
deriving DecidableEq

/-- Interface model of `tikv_client::CheckLevel` (drop-check policy). -/
inductive CheckLevel where
  | Panic
  | Warn
  | None
deriving DecidableEq

/-- Interface model of `tikv_client::RetryOptions`: a region backoff and a lock
backoff; `open` passes a fresh clone of the resolved backoff for both. -/
structure RetryOptions where
  region_backoff : Backoff
  lock_backoff : Backoff
deriving DecidableEq

/-- Interface model of `tikv_client::TransactionOptions` restricted to the fields the
builder chains in `open` determine: transaction kind, drop check, retry options and
read-only flag. -/
structure TransactionOptions where
  pessimistic : Bool
  check_level : CheckLevel
  retry_options : RetryOptions
  read_only : Bool
deriving DecidableEq

/-- Embeds a recorded `config.new_build_error` entry: the configuration key path and
the message. -/
structure BuildError where
  keyPath : String
  message : String
deriving DecidableEq

/-- Embeds the slice of `utils::config::Config` that `TikvStore::open` reads: the
typed properties under the key prefix (absent keys are `none`; durations are in
milliseconds, as `open` converts them with `as_millis`), plus the build errors
recorded so far. -/
structure Config where
  pd_endpoints : List String
  backoff_min_delay : Option Nat
  backoff_max_delay : Option Nat
  backoff_retry_limit : Option Nat
  backoff_type : Option String
  build_errors : List BuildError
deriving DecidableEq

/-- Embeds `Config::new_build_error`: records a build error against a key. -/
def Config.new_build_error (c : Config) (k m : String) : Config :=
  { c with build_errors := c.build_errors ++ [⟨k, m⟩] }

/-- Embeds lines 31-81 of `TikvStore::open` (`crates/store/src/backend/tikv/main.rs`):
defaults 500 ms / 2000 ms / 30 attempts, then the match on `transaction.backoff-type`.
The Rust arm `"full-jitter" | &_` makes `full_jitter_backoff` the fallback for any
present-but-unrecognized kind, while an absent key falls back to
`decorrelated_jitter_backoff`. -/
def resolveBackoff (config : Config) : Backoff :=
  let backoff_min_delay := config.backoff_min_delay.getD 500
  let backoff_max_delay := config.backoff_max_delay.getD 2000
  let max_attempts := config.backoff_retry_limit.getD 30
  match config.backoff_type with
  | some backoff_type =>
      if backoff_type = "expo-jitter" then
        Backoff.no_jitter_backoff backoff_min_delay backoff_max_delay max_attempts
      else if backoff_type = "equal-jitter" then
        Backoff.equal_jitter_backoff backoff_min_delay backoff_max_delay max_attempts
      else if backoff_type = "decor-jitter" then
        Backoff.decorrelated_jitter_backoff backoff_min_delay backoff_max_delay max_attempts
      else if backoff_type = "none" then
        Backoff.no_backoff
      else
        Backoff.full_jitter_backoff backoff_min_delay backoff_max_delay max_attempts
  | none =>
      Backoff.decorrelated_jitter_backoff backoff_min_delay backoff_max_delay max_attempts

/-- Embeds the `TikvStore` struct: the two transaction templates, the version clock
seeded from the initial timestamp, and the resolved backoff. The cluster connection
handle carries no observable state at this level and is omitted. -/
structure TikvStore where
  write_trx_options : TransactionOptions
  read_trx_options : TransactionOptions
  version : Nat
  backoff : Backoff
deriving DecidableEq

/-- Embeds `TikvStore::open`. The two external effects are passed as results:
`trx_client_result` for `TransactionClient::new` and `timestamp_result` for
`current_timestamp`. Returns the updated `Config` (build errors recorded on failure)
and the optional store, mirroring `ok()?` control flow and the builder chains for the
write template (pessimistic, warn-on-drop) and read template (optimistic,
silent-on-drop, read-only), each given its own clone of the backoff. -/
def TikvStore.openStore (config : Config) (pfx : String)
    (trx_client_result : Except String Unit) (timestamp_result : Except String Nat) :
    Config × Option TikvStore :=
  match trx_client_result with
  | Except.error err =>
      (config.new_build_error pfx ("Failed to create TiKV database: " ++ err), none)
  | Except.ok _ =>
      let backoff := resolveBackoff config
      let write_trx_options : TransactionOptions :=
        { pessimistic := true, check_level := CheckLevel.Warn,
          retry_options := ⟨backoff, backoff⟩, read_only := false }
      let read_trx_options : TransactionOptions :=
        { pessimistic := false, check_level := CheckLevel.None,
          retry_options := ⟨backoff, backoff⟩, read_only := true }
      match timestamp_result with
      | Except.error err =>
          (config.new_build_error pfx ("Failed to create TiKV database: " ++ err), none)
      | Except.ok current_timestamp =>
          (config, some { write_trx_options := write_trx_options,
                          read_trx_options := read_trx_options,
                          version := current_timestamp, backoff := backoff })

/-- C3: the retry-policy fallback is asymmetric: a present but unrecognized
`backoff-type` resolves to full-jitter, while an absent `backoff-type` resolves to
decorrelated-jitter (with the configured or default delay and attempt parameters). -/
theorem resolveBackoff_fallback_asymmetry (config : Config) :
    (∀ t, config.backoff_type = some t →
      t ∉ (["expo-jitter", "equal-jitter", "decor-jitter", "none",
            "full-jitter"] : List String) →
      resolveBackoff config =
        Backoff.full_jitter_backoff (config.backoff_min_delay.getD 500)
          (config.backoff_max_delay.getD 2000) (config.backoff_retry_limit.getD 30)) ∧
    (config.backoff_type = none →
      resolveBackoff config =
        Backoff.decorrelated_jitter_backoff (config.backoff_min_delay.getD 500)
          (config.backoff_max_delay.getD 2000) (config.backoff_retry_limit.getD 30)) := by
  constructor
  · intro t ht hmem
    simp only [List.mem_cons, List.not_mem_nil, or_false, not_or] at hmem
    obtain ⟨h1, h2, h3, h4, h5⟩ := hmem
    simp [resolveBackoff, ht, h1, h2, h3, h4, h5]
  · intro ht
    simp [resolveBackoff, ht]

/-- C4: every store returned by a successful `open` carries a pessimistic, warn-on-drop
write template and an optimistic, silent-on-drop, read-only read template, each holding
its own copy of the resolved backoff in both retry slots. -/
theorem openStore_transaction_templates (config : Config) (pfx : String)
    (tc : Except String Unit) (ts : Except String Nat) (store : TikvStore)
    (h : (TikvStore.openStore config pfx tc ts).2 = some store) :
    store.write_trx_options =
      { pessimistic := true, check_level := CheckLevel.Warn,
        retry_options := ⟨resolveBackoff config, resolveBackoff config⟩,
        read_only := false } ∧
    store.read_trx_options =
      { pessimistic := false, check_level := CheckLevel.None,
        retry_options := ⟨resolveBackoff config, resolveBackoff config⟩,
        read_only := true } := by
  cases tc with
  | error e => simp [TikvStore.openStore] at h
  | ok u =>
    cases u
    cases ts with
    | error e => simp [TikvStore.openStore] at h
    | ok t =>
      simp only [TikvStore.openStore, Option.some.injEq] at h
      subst h
      exact ⟨rfl, rfl⟩

/-- C5: `open` yields no store exactly when client creation or the initial timestamp
fetch fails; each failure records a build error carrying the key prefix; on success the
store is initialized with the fetched timestamp and the resolved backoff. -/
theorem openStore_none_iff_failure (config : Config) (pfx : String)
    (tc : Except String Unit) (ts : Except String Nat) :
    ((TikvStore.openStore config pfx tc ts).2 = none ↔
      (∃ e, tc = Except.error e) ∨ ∃ e, ts = Except.error e) ∧
    ((∃ e, tc = Except.error e) ∨ (∃ e, ts = Except.error e) →
      ∃ msg, (TikvStore.openStore config pfx tc ts).1.build_errors =
        config.build_errors ++ [⟨pfx, msg⟩]) ∧
    (∀ t, tc = Except.ok () → ts = Except.ok t →
      (TikvStore.openStore config pfx tc ts).2 =
        some { write_trx_options :=
                 { pessimistic := true, check_level := CheckLevel.Warn,
                   retry_options := ⟨resolveBackoff config, resolveBackoff config⟩,
                   read_only := false },
               read_trx_options :=
                 { pessimistic := false, check_level := CheckLevel.None,
                   retry_options := ⟨resolveBackoff config, resolveBackoff config⟩,
                   read_only := true },
               version := t, backoff := resolveBackoff config }) := by
  cases tc with
  | error e =>
    refine ⟨by simp [TikvStore.openStore], ?_, ?_⟩
    · intro _
      exact ⟨"Failed to create TiKV database: " ++ e,
        by simp [TikvStore.openStore, Config.new_build_error]⟩
    · intro t h
      simp at h
  | ok u =>
    cases u
    cases ts with
    | error e =>
      refine ⟨by simp [TikvStore.openStore], ?_, ?_⟩
      · intro _
        exact ⟨"Failed to create TiKV database: " ++ e,
          by simp [TikvStore.openStore, Config.new_build_error]⟩
      · intro t _ h
        simp at h
    | ok t0 =>
      refine ⟨by simp [TikvStore.openStore], ?_, ?_⟩
      · rintro (⟨e, h⟩ | ⟨e, h⟩) <;> simp at h
      · intro t _ h
        injection h with h
        subst h
        simp [TikvStore.openStore]

/-- Configuration with an unrecognized backoff kind and no explicit tuning values. -/
def cfgUnrecognized : Config :=
  { pd_endpoints := ["pd0:2379"], backoff_min_delay := none, backoff_max_delay := none,
    backoff_retry_limit := none, backoff_type := some "bogus", build_errors := [] }

/-- Configuration with no backoff kind at all. -/
def cfgAbsent : Config :=
  { pd_endpoints := ["pd0:2379"], backoff_min_delay := none, backoff_max_delay := none,
    backoff_retry_limit := none, backoff_type := none, build_errors := [] }

/-- The store a successful open of `cfgAbsent` at timestamp 42 produces. -/
def sampleStore : TikvStore :=
  { write_trx_options :=
      { pessimistic := true, check_level := CheckLevel.Warn,
        retry_options := ⟨resolveBackoff cfgAbsent, resolveBackoff cfgAbsent⟩,
        read_only := false },
    read_trx_options :=
      { pessimistic := false, check_level := CheckLevel.None,
        retry_options := ⟨resolveBackoff cfgAbsent, resolveBackoff cfgAbsent⟩,
        read_only := true },
    version := 42, backoff := resolveBackoff cfgAbsent }

/-- Witness for C3 on the two concrete configurations. -/
theorem resolveBackoff_fallback_asymmetry_witness :
    resolveBackoff cfgUnrecognized = Backoff.full_jitter_backoff 500 2000 30 ∧
    resolveBackoff cfgAbsent = Backoff.decorrelated_jitter_backoff 500 2000 30 :=
  ⟨(resolveBackoff_fallback_asymmetry cfgUnrecognized).1 "bogus" rfl (by decide),
   (resolveBackoff_fallback_asymmetry cfgAbsent).2 rfl⟩

/-- Witness for C4 at a concrete successful open. -/
theorem openStore_transaction_templates_witness :
    sampleStore.write_trx_options =
      { pessimistic := true, check_level := CheckLevel.Warn,
        retry_options := ⟨resolveBackoff cfgAbsent, resolveBackoff cfgAbsent⟩,
        read_only := false } ∧
    sampleStore.read_trx_options =
      { pessimistic := false, check_level := CheckLevel.None,
        retry_options := ⟨resolveBackoff cfgAbsent, resolveBackoff cfgAbsent⟩,
        read_only := true } :=
  openStore_transaction_templates cfgAbsent "store.tikv" (Except.ok ()) (Except.ok 42)
    sampleStore rfl

/-- Witness for C5: a failed client creation yields no store; a fully successful open
yields the initialized store. -/
theorem openStore_none_iff_failure_witness :
    (TikvStore.openStore cfgAbsent "store.tikv" (Except.error "connection refused")
        (Except.ok 42)).2 = none ∧
    (TikvStore.openStore cfgAbsent "store.tikv" (Except.ok ()) (Except.ok 42)).2 =
      some sampleStore :=
  ⟨(openStore_none_iff_failure cfgAbsent "store.tikv" (Except.error "connection refused")
      (Except.ok 42)).1.mpr (Or.inl ⟨"connection refused", rfl⟩),
   (openStore_none_iff_failure cfgAbsent "store.tikv" (Except.ok ())
      (Except.ok 42)).2.2 42 rfl rfl⟩

/-- Embeds `store::LogKey` as used by the purge test: a 32-bit account id, an 8-bit
collection id and a 64-bit change id. -/
structure LogKey where
  account_id : Nat
  collection : Nat
  change_id : Nat
deriving DecidableEq

/-- Big-endian serialization of `x` into `w` bytes: most significant byte first. -/
def beBytes : Nat → Nat → List Nat
  | 0, _ => []
  | w + 1, x => x / 256 ^ w :: beBytes w (x % 256 ^ w)

/-- Modelled from the spec: the 13-byte LogKey encoding (the `store::write::key`
serializer is not under `src/`): big-endian 32-bit `account_id`, then the 8-bit
`collection`, then big-endian 64-bit `change_id`, concatenated. This matches how the
purge test decodes keys: `collection` at offset `U32_LEN` and `change_id` as a
big-endian u64 in the final 8 bytes. -/
def LogKey.serialize (k : LogKey) : List Nat :=
  beBytes 4 k.account_id ++ k.collection :: beBytes 8 k.change_id

/-- Lexicographic order on the tuples (account_id, collection, change_id). -/
def LogKey.tupleLt (k1 k2 : LogKey) : Prop :=
  k1.account_id < k2.account_id ∨
    (k1.account_id = k2.account_id ∧
      (k1.collection < k2.collection ∨
        (k1.collection = k2.collection ∧ k1.change_id < k2.change_id)))

instance (k1 k2 : LogKey) : Decidable (k1.tupleLt k2) := by
  unfold LogKey.tupleLt
  infer_instance

lemma lex_cons_iff {α : Type} {r : α → α → Prop} {a b : α} {l1 l2 : List α} :
    List.Lex r (a :: l1) (b :: l2) ↔ r a b ∨ (a = b ∧ List.Lex r l1 l2) := by
  constructor
  · intro h
    cases h with
    | rel h => exact Or.inl h
    | cons h => exact Or.inr ⟨rfl, h⟩
  · rintro (h | ⟨rfl, h⟩)
    · exact List.Lex.rel h
    · exact List.Lex.cons h

lemma lex_append_iff {α : Type} {r : α → α → Prop} :
    ∀ (l1 l2 m1 m2 : List α), l1.length = l2.length →
      (List.Lex r (l1 ++ m1) (l2 ++ m2) ↔
        List.Lex r l1 l2 ∨ (l1 = l2 ∧ List.Lex r m1 m2))
  | [], [], m1, m2, _ => by simp
  | [], b :: l2, m1, m2, h => by simp at h
  | a :: l1, [], m1, m2, h => by simp at h
  | a :: l1, b :: l2, m1, m2, h => by
      have ih := lex_append_iff (r := r) l1 l2 m1 m2 (by simpa using h)
      simp only [List.cons_append, lex_cons_iff, ih, List.cons.injEq]
      tauto

lemma beBytes_length (w : Nat) : ∀ x, (beBytes w x).length = w := by
  induction w with
  | zero => intro x; rfl
  | succ w ih => intro x; simp [beBytes, ih]

lemma div_mod_lt_iff (B x y : Nat) (hB : 0 < B) :
    (x / B < y / B ∨ (x / B = y / B ∧ x % B < y % B)) ↔ x < y := by
  constructor
  · rintro (h | ⟨hq, hr⟩)
    · calc x < (y / B) * B := (Nat.div_lt_iff_lt_mul hB).mp h
        _ ≤ y := Nat.div_mul_le_self y B
    · calc x = B * (x / B) + x % B := (Nat.div_add_mod x B).symm
        _ < B * (x / B) + y % B := Nat.add_lt_add_left hr _
        _ = B * (y / B) + y % B := by rw [hq]
        _ = y := Nat.div_add_mod y B
  · intro hxy
    have hq : x / B ≤ y / B := Nat.div_le_div_right (Nat.le_of_lt hxy)
    rcases Nat.lt_or_ge (x / B) (y / B) with h | h
    · exact Or.inl h
    · have heq : x / B = y / B := Nat.le_antisymm hq h
      refine Or.inr ⟨heq, ?_⟩
      have hlt : B * (x / B) + x % B < B * (y / B) + y % B := by
        rw [Nat.div_add_mod, Nat.div_add_mod]
        exact hxy
      rw [heq] at hlt
      exact Nat.lt_of_add_lt_add_left hlt

lemma beBytes_lt_iff (w : Nat) : ∀ x y, x < 256 ^ w → y < 256 ^ w →
    (List.Lex (fun a b => a < b) (beBytes w x) (beBytes w y) ↔ x < y) := by
  induction w with
  | zero =>
    intro x y hx hy
    interval_cases x
    interval_cases y
    constructor
    · intro h
      cases h
    · intro h
      omega
  | succ w ih =>
    intro x y hx hy
    have hB : 0 < 256 ^ w := Nat.pos_pow_of_pos w (by norm_num)
    rw [beBytes, beBytes, lex_cons_iff,
      ih (x % 256 ^ w) (y % 256 ^ w) (Nat.mod_lt _ hB) (Nat.mod_lt _ hB)]
    exact div_mod_lt_iff (256 ^ w) x y hB

lemma beBytes_inj (w : Nat) : ∀ x y, x < 256 ^ w → y < 256 ^ w →
    (beBytes w x = beBytes w y ↔ x = y) := by
  induction w with
  | zero =>
    intro x y hx hy
    interval_cases x
    interval_cases y
    simp [beBytes]
  | succ w ih =>
    intro x y hx hy
    have hB : 0 < 256 ^ w := Nat.pos_pow_of_pos w (by norm_num)
    rw [beBytes, beBytes, List.cons.injEq,
      ih (x % 256 ^ w) (y % 256 ^ w) (Nat.mod_lt _ hB) (Nat.mod_lt _ hB)]
    constructor
    · rintro ⟨hq, hr⟩
      calc x = 256 ^ w * (x / 256 ^ w) + x % 256 ^ w := (Nat.div_add_mod _ _).symm
        _ = 256 ^ w * (y / 256 ^ w) + y % 256 ^ w := by rw [hq, hr]
        _ = y := Nat.div_add_mod _ _
    · rintro rfl
      exact ⟨rfl, rfl⟩

/-- C8: for well-formed LogKeys, byte-lexicographic order of the 13-byte encoding
coincides with lexicographic order of the tuples (account_id, collection, change_id),
and the encoding is injective, so byte comparison of encodings equals tuple
comparison. -/
theorem logKey_encoding_order_preserving (k1 k2 : LogKey)
    (h1a : k1.account_id < 2 ^ 32) (h2a : k2.account_id < 2 ^ 32)
    (_h1c : k1.collection < 2 ^ 8) (_h2c : k2.collection < 2 ^ 8)
    (h1ch : k1.change_id < 2 ^ 64) (h2ch : k2.change_id < 2 ^ 64) :
    (List.Lex (fun a b => a < b) k1.serialize k2.serialize ↔ k1.tupleLt k2) ∧
    (k1.serialize = k2.serialize ↔ k1 = k2) := by
  have e4 : (2 : Nat) ^ 32 = 256 ^ 4 := by norm_num
  have e8 : (2 : Nat) ^ 64 = 256 ^ 8 := by norm_num
  rw [e4] at h1a h2a
  rw [e8] at h1ch h2ch
  have hlen : (beBytes 4 k1.account_id).length = (beBytes 4 k2.account_id).length := by
    rw [beBytes_length, beBytes_length]
  constructor
  · rw [LogKey.serialize, LogKey.serialize, lex_append_iff _ _ _ _ hlen, lex_cons_iff,
      beBytes_lt_iff 4 _ _ h1a h2a, beBytes_lt_iff 8 _ _ h1ch h2ch,
      beBytes_inj 4 _ _ h1a h2a]
    exact Iff.rfl
  · constructor
    · intro h
      rw [LogKey.serialize, LogKey.serialize] at h
      obtain ⟨hA, hrest⟩ :=
        List.append_inj h (by rw [beBytes_length, beBytes_length])
      injection hrest with hc hCh
      have ha := (beBytes_inj 4 _ _ h1a h2a).mp hA
      have hch := (beBytes_inj 8 _ _ h1ch h2ch).mp hCh
      cases k1
      cases k2
      simp_all
    · rintro rfl
      rfl

/-- Witness for C8 on two concrete keys differing only in the change id. -/
theorem logKey_encoding_order_preserving_witness :
    LogKey.tupleLt ⟨1, 2, 3⟩ ⟨1, 2, 4⟩ ∧
    List.Lex (fun a b => a < b) (LogKey.serialize ⟨1, 2, 3⟩)
      (LogKey.serialize ⟨1, 2, 4⟩) :=
  have h := logKey_encoding_order_preserving ⟨1, 2, 3⟩ ⟨1, 2, 4⟩ (by decide) (by decide)
    (by decide) (by decide) (by decide) (by decide)
  ⟨Or.inr ⟨rfl, Or.inr ⟨rfl, by decide⟩⟩,
   h.1.mpr (Or.inr ⟨rfl, Or.inr ⟨rfl, by decide⟩⟩)⟩

/-- Modelled from the spec: the well-known mailbox ids used by the purge scenario
(`INBOX_ID`, `TRASH_ID`, `JUNK_ID` from the jmap mailbox module, not under `src/`);
only their distinctness matters here. -/
def INBOX_ID : Nat := 0

/-- Trash mailbox id. -/
def TRASH_ID : Nat := 1

/-- Junk mailbox id. -/
def JUNK_ID : Nat := 2

/-- Collection discriminant for emails, as in `Collection::Email`. -/
def emailCollection : Nat := 0

/-- Modelled from the spec: a stored email document with its mailbox tags and its
creation instant on the change-id clock (§3, §4.4: change ids increase with every
mutation, so creation time and change id share one clock). -/
structure Doc where
  docId : Nat
  mailboxes : List Nat
  createdAt : Nat
deriving DecidableEq

/-- Modelled from the spec: one change-log record, keyed per account by (collection,
change_id); the purge test identifies records by the pair (change_id, collection). -/
structure ChangeRec where
  collection : Nat
  change_id : Nat
deriving DecidableEq

/-- Modelled from the spec: the per-account store state the purge scenario observes:
the retained documents (each carrying its mailbox tags, which form the tag index) and
the append-only change log. -/
structure AccountState where
  docs : List Doc
  changeLog : List ChangeRec
deriving DecidableEq

/-- Embeds the observation `get_document_ids(account, Email)`. -/
def get_document_ids (s : AccountState) : List Nat :=
  s.docs.map (fun d => d.docId)

/-- Embeds the observation `get_tag(account, Email, MailboxIds, tag)`: the document
ids currently carrying the tag. -/
def get_tag (s : AccountState) (tag : Nat) : List Nat :=
  (s.docs.filter (fun d => d.mailboxes.contains tag)).map (fun d => d.docId)

/-- Embeds the purge test helper `get_changes`: a full ascending LogKey scan in
no-values mode collecting the pairs (change_id, collection). -/
def get_changes (s : AccountState) : List (Nat × Nat) :=
  s.changeLog.map (fun c => (c.change_id, c.collection))

/-- Modelled from the spec: the collector policy of §4.4/§8 marks a document stale
when it sits in trash or junk and predates the purge boundary. -/
def isStale (boundary : Nat) (d : Doc) : Bool :=
  (d.mailboxes.contains TRASH_ID || d.mailboxes.contains JUNK_ID) &&
    decide (d.createdAt < boundary)

/-- Modelled from the spec: `purge_account` (implementation not under `src/`, §4.4,
§8): removes every stale trash/junk document together with its tag-index entries (tags
live on the document here, so they leave with it) and removes every change-log record
predating the purge boundary; §8 shows all pass-1 records go, including those of
retained inbox documents. -/
def purge_account (boundary : Nat) (s : AccountState) : AccountState :=
  { docs := s.docs.filter (fun d => !(isStale boundary d)),
    changeLog := s.changeLog.filter (fun c => !(decide (c.change_id < boundary))) }

/-- Pass-1 documents of the §8 scenario: one message per mailbox at ticks 0..2. -/
def pass1Docs : List Doc :=
  [⟨0, [INBOX_ID], 0⟩, ⟨1, [TRASH_ID], 1⟩, ⟨2, [JUNK_ID], 2⟩]

/-- Pass-2 documents: one message per mailbox at ticks 3..5, after the sleep. -/
def pass2Docs : List Doc :=
  [⟨3, [INBOX_ID], 3⟩, ⟨4, [TRASH_ID], 4⟩, ⟨5, [JUNK_ID], 5⟩]

/-- Change-log records created in pass 1. -/
def pass1Changes : List ChangeRec :=
  [⟨emailCollection, 0⟩, ⟨emailCollection, 1⟩, ⟨emailCollection, 2⟩]

/-- Change-log records created in pass 2. -/
def pass2Changes : List ChangeRec :=
  [⟨emailCollection, 3⟩, ⟨emailCollection, 4⟩, ⟨emailCollection, 5⟩]

/-- The account state right before the purge: 6 documents, 6 change records. -/
def scenarioState : AccountState :=
  ⟨pass1Docs ++ pass2Docs, pass1Changes ++ pass2Changes⟩

/-- The purge boundary of the scenario: it falls between the two passes. -/
def scenarioBoundary : Nat := 3

/-- The state after one `purge_account` call. -/
def purgedState : AccountState := purge_account scenarioBoundary scenarioState

/-- C1: after one purge of the §8 scenario, 4 documents remain, the tag index reports
2 inbox / 1 trash / 1 junk ids, every pass-1 change record is absent from the full
ascending scan and every pass-2 record is still present. -/
theorem purge_scenario_outcome :
    (get_document_ids purgedState).length = 4 ∧
    (get_tag purgedState INBOX_ID).length = 2 ∧
    (get_tag purgedState TRASH_ID).length = 1 ∧
    (get_tag purgedState JUNK_ID).length = 1 ∧
    pass1Changes.all
      (fun c => !((get_changes purgedState).contains (c.change_id, c.collection))) = true ∧
    pass2Changes.all
      (fun c => (get_changes purgedState).contains (c.change_id, c.collection)) = true := by
  decide

/-- C2: `purge_account` is idempotent: a second call with the same boundary leaves the
whole state (documents with their tags, and the change log) unchanged. -/
theorem purge_account_idempotent (boundary : Nat) (s : AccountState) :
    purge_account boundary (purge_account boundary s) = purge_account boundary s := by
  simp [purge_account, List.filter_filter]
